import Mathlib

/-!
# Formal model of the PsychMusic audio-feature and particle core

Shallow embedding of the feature-extraction and particle-simulation logic of
the PsychMusic repository:

* `AudioInformationExtractor` — the stateful tempo estimator (`detectBPM`),
  band extraction (`extractFrequencyBands`), volume, `analyzeAudio` and
  `reset`, from `AudioInformation.tsx`.
* `AudioAnalyzer` — the second feature-extraction variant (RMS volume,
  proportional band levels, dominant frequency, energy) from
  `AudioProperties.tsx`.
* The particle pool logic (spawn capping, per-tick update and lifetime
  filtering) from `AudioVisualizer.tsx`.

JavaScript numbers are idealised as exact rationals (`ℚ`, with `ℝ` only where
the source takes a square root).  A division whose divisor is zero produces a
non-finite JS value (`NaN` or `±Infinity`); such results are modelled by
`none` in an `Option`-valued result.  Timestamps (`Date.now()`) are passed as
explicit integer parameters.
-/

namespace PsychMusic

/-- JS division as used by the source: `none` models the non-finite result
(`NaN` or `±Infinity`) produced when the divisor is `0`; otherwise the exact
rational quotient. -/
def jsDivQ (a b : ℚ) : Option ℚ :=
  if b = 0 then none else some (a / b)

/-- JS `Math.round` on a finite value: round half towards positive infinity. -/
def jsRound (q : ℚ) : ℤ :=
  ⌊q + 1 / 2⌋

/-- Truncation towards zero, as used by the JS `%` remainder operator. -/
def ratTrunc (q : ℚ) : ℤ :=
  if 0 ≤ q then ⌊q⌋ else ⌈q⌉

/-- The JS `%` remainder operator on finite operands:
`a % b = a - b * trunc (a / b)`. -/
def jsMod (a b : ℚ) : ℚ :=
  a - b * ratTrunc (a / b)

/-- Sum of the JS slice `s.slice(a, b)` (for `a ≤ b`), reduced with initial
accumulator `0`. -/
def sliceSum (s : List ℕ) (a b : ℕ) : ℕ :=
  ((s.drop a).take (b - a)).sum

namespace AudioInformationExtractor

/-- The `BPMDetection` record of `AudioInformation.tsx`: peak timestamps,
timestamp of the last accepted peak, and recent inter-peak intervals. -/
structure BPMDetection where
  peaks : List ℤ
  lastPeakTime : ℤ
  intervals : List ℤ
deriving DecidableEq, Repr

/-- The mutable state of an `AudioInformationExtractor` instance. -/
structure ExtractorState where
  bpmDetection : BPMDetection
  currentBPM : ℤ
deriving DecidableEq, Repr

/-- The field initialisers of a freshly constructed
`AudioInformationExtractor`. -/
def initState : ExtractorState :=
  { bpmDetection := { peaks := [], lastPeakTime := 0, intervals := [] },
    currentBPM := 120 }

/-- `reset()`: restore the detection record and the BPM to their initial
values. -/
def reset (_s : ExtractorState) : ExtractorState :=
  { bpmDetection := { peaks := [], lastPeakTime := 0, intervals := [] },
    currentBPM := 120 }

/-- The interval-history cap of `detectBPM`: after appending, `shift()` the
oldest entry away when more than 8 intervals are stored. -/
def stepIntervals (ints1 : List ℤ) : List ℤ :=
  if 8 < ints1.length then ints1.drop 1 else ints1

/-- The peak-history cap of `detectBPM`: after pushing, `shift()` the oldest
entry away when more than 10 peaks are stored. -/
def stepPeaks (peaks1 : List ℤ) : List ℤ :=
  if 10 < peaks1.length then peaks1.drop 1 else peaks1

/-- The BPM candidate of `detectBPM`: `Math.round(60000 / avgInterval)` where
`avgInterval` is the arithmetic mean of the stored intervals. -/
def candidateBPM (ints : List ℤ) : ℤ :=
  jsRound (60000 / ((ints.sum : ℚ) / (ints.length : ℚ)))

/-- The BPM update of `detectBPM`: with at least 4 intervals stored, accept
the candidate only when it lies in `[60, 200]`; otherwise keep the previous
value. -/
def updateBPM (prev : ℤ) (ints : List ℤ) : ℤ :=
  if 4 ≤ ints.length then
    if 60 ≤ candidateBPM ints ∧ candidateBPM ints ≤ 200 then candidateBPM ints
    else prev
  else prev

/-- The state change performed by `detectBPM` when a peak is accepted: push
the timestamp, and — when there is a previous peak — record the inter-peak
interval (capped FIFO) and recompute the BPM; then stamp `lastPeakTime` and
cap the peak history. -/
def peakUpdate (s : ExtractorState) (t : ℤ) : ExtractorState :=
  if 1 < (s.bpmDetection.peaks ++ [t]).length then
    { bpmDetection :=
        { peaks := stepPeaks (s.bpmDetection.peaks ++ [t]),
          lastPeakTime := t,
          intervals := stepIntervals (s.bpmDetection.intervals ++
            [t - (s.bpmDetection.peaks ++ [t]).getD
              ((s.bpmDetection.peaks ++ [t]).length - 2) 0]) },
      currentBPM := updateBPM s.currentBPM
        (stepIntervals (s.bpmDetection.intervals ++
          [t - (s.bpmDetection.peaks ++ [t]).getD
            ((s.bpmDetection.peaks ++ [t]).length - 2) 0])) }
  else
    { bpmDetection :=
        { peaks := stepPeaks (s.bpmDetection.peaks ++ [t]),
          lastPeakTime := t,
          intervals := s.bpmDetection.intervals },
      currentBPM := s.currentBPM }

/-- `detectBPM(bass)` of `AudioInformation.tsx`, with the ambient
`Date.now()` passed explicitly as `t`.  Returns the reported BPM together
with the successor state. -/
def detectBPM (bass : ℚ) (t : ℤ) (s : ExtractorState) : ℤ × ExtractorState :=
  if bass > 180 ∧ 200 < t - s.bpmDetection.lastPeakTime then
    ((peakUpdate s t).currentBPM, peakUpdate s t)
  else
    (s.currentBPM, s)

/-- `extractFrequencyBands` returns the three slice sums divided by the fixed
divisors 50, 100 and 106. -/
structure Bands where
  bass : ℚ
  mid : ℚ
  treble : ℚ
deriving DecidableEq, Repr

/-- `extractFrequencyBands(frequencyData)` of `AudioInformation.tsx`. -/
def extractFrequencyBands (s : List ℕ) : Bands :=
  { bass := (sliceSum s 0 50 : ℚ) / 50,
    mid := (sliceSum s 50 150 : ℚ) / 100,
    treble := (sliceSum s 150 256 : ℚ) / 106 }

/-- `calculateVolume(frequencyData)` of `AudioInformation.tsx`:
`sum / frequencyData.length` (the `0/0 = NaN` case is `none`). -/
def calculateVolume (s : List ℕ) : Option ℚ :=
  jsDivQ (s.sum : ℚ) (s.length : ℚ)

/-- The `AudioInfo` value returned by `analyzeAudio`. -/
structure AudioInfo where
  bpm : ℤ
  bass : ℚ
  mid : ℚ
  treble : ℚ
  volume : Option ℚ
  frequencyData : List ℕ
deriving DecidableEq, Repr

/-- `analyzeAudio(frequencyData)` of `AudioInformation.tsx`, with the ambient
timestamp passed explicitly. -/
def analyzeAudio (s : List ℕ) (t : ℤ) (st : ExtractorState) :
    AudioInfo × ExtractorState :=
  let b := extractFrequencyBands s
  let r := detectBPM b.bass t st
  (⟨r.1, b.bass, b.mid, b.treble, calculateVolume s, s⟩, r.2)

/-- The extractor states reachable from a fresh (or reset) instance by any
sequence of `detectBPM` calls (this also covers `analyzeAudio`, whose state
transition is a `detectBPM` step). -/
inductive Reachable : ExtractorState → Prop
  | init : Reachable initState
  | step (bass : ℚ) (t : ℤ) (s : ExtractorState) :
      Reachable s → Reachable (detectBPM bass t s).2

lemma updateBPM_range {prev : ℤ} (ints : List ℤ)
    (h : 60 ≤ prev ∧ prev ≤ 200) :
    60 ≤ updateBPM prev ints ∧ updateBPM prev ints ≤ 200 := by
  unfold updateBPM
  split
  · split
    · next hc => exact hc
    · exact h
  · exact h

lemma detectBPM_currentBPM_eq_fst (bass : ℚ) (t : ℤ) (s : ExtractorState) :
    (detectBPM bass t s).2.currentBPM = (detectBPM bass t s).1 := by
  unfold detectBPM
  split <;> rfl

lemma peakUpdate_bpm_range {s : ExtractorState} (t : ℤ)
    (h : 60 ≤ s.currentBPM ∧ s.currentBPM ≤ 200) :
    60 ≤ (peakUpdate s t).currentBPM ∧ (peakUpdate s t).currentBPM ≤ 200 := by
  unfold peakUpdate
  split
  · exact updateBPM_range _ h
  · exact h

/-- The BPM component of every reachable extractor state lies in
`[60, 200]`. -/
lemma reachable_bpm_range {s : ExtractorState} (h : Reachable s) :
    60 ≤ s.currentBPM ∧ s.currentBPM ≤ 200 := by
  induction h with
  | init => exact ⟨by norm_num [initState], by norm_num [initState]⟩
  | step bass t s _ ih =>
      unfold detectBPM
      split
      · exact peakUpdate_bpm_range t ih
      · exact ih

lemma peakUpdate_bpm_cases (s : ExtractorState) (t : ℤ) :
    (peakUpdate s t).currentBPM = s.currentBPM ∨
      (4 ≤ (peakUpdate s t).bpmDetection.intervals.length ∧
        (peakUpdate s t).currentBPM =
          candidateBPM (peakUpdate s t).bpmDetection.intervals ∧
        60 ≤ (peakUpdate s t).currentBPM ∧
        (peakUpdate s t).currentBPM ≤ 200) := by
  unfold peakUpdate
  split
  · dsimp only
    unfold updateBPM
    split
    · next h4 =>
      split
      · next hr => exact Or.inr ⟨h4, rfl, hr.1, hr.2⟩
      · exact Or.inl rfl
    · exact Or.inl rfl
  · exact Or.inl rfl

/-- Claim C1: the tempo estimator's BPM always lies in `[60, 200]`: it starts at
the default 120, is replaced only when at least 4 intervals are stored and
the rounded candidate `60000 / meanInterval` itself lies in `[60, 200]`, and
otherwise is returned unchanged; hence every BPM returned by any sequence of
`detectBPM` calls from a fresh or reset estimator lies in `[60, 200]`. -/
theorem detectBPM_range_invariant (s : ExtractorState) (h : Reachable s)
    (bass : ℚ) (t : ℤ) :
    (60 ≤ s.currentBPM ∧ s.currentBPM ≤ 200) ∧
    initState.currentBPM = 120 ∧
    (60 ≤ (detectBPM bass t s).1 ∧ (detectBPM bass t s).1 ≤ 200) ∧
    ((detectBPM bass t s).2.currentBPM = s.currentBPM ∨
      (4 ≤ (detectBPM bass t s).2.bpmDetection.intervals.length ∧
        (detectBPM bass t s).1 =
          candidateBPM (detectBPM bass t s).2.bpmDetection.intervals ∧
        60 ≤ (detectBPM bass t s).1 ∧ (detectBPM bass t s).1 ≤ 200)) := by
  refine ⟨reachable_bpm_range h, rfl, ?_, ?_⟩
  · have h2 := reachable_bpm_range (Reachable.step bass t s h)
    rwa [detectBPM_currentBPM_eq_fst] at h2
  · unfold detectBPM
    split
    · exact peakUpdate_bpm_cases s t
    · exact Or.inl rfl

/-- Witness for C1 at the fresh state and a concrete call. -/
theorem detectBPM_range_invariant_witness :
    (60 ≤ initState.currentBPM ∧ initState.currentBPM ≤ 200) ∧
    initState.currentBPM = 120 ∧
    (60 ≤ (detectBPM 0 0 initState).1 ∧ (detectBPM 0 0 initState).1 ≤ 200) ∧
    ((detectBPM 0 0 initState).2.currentBPM = initState.currentBPM ∨
      (4 ≤ (detectBPM 0 0 initState).2.bpmDetection.intervals.length ∧
        (detectBPM 0 0 initState).1 =
          candidateBPM (detectBPM 0 0 initState).2.bpmDetection.intervals ∧
        60 ≤ (detectBPM 0 0 initState).1 ∧
        (detectBPM 0 0 initState).1 ≤ 200)) :=
  detectBPM_range_invariant initState Reachable.init 0 0

/-- Claim C9: a `detectBPM` call with bass level at most 180, or arriving within
200 ms of the last accepted peak, returns the current BPM and leaves the
whole tempo state (peaks, intervals, last peak time, BPM) unchanged. -/
theorem detectBPM_subthreshold_frame (s : ExtractorState) (bass : ℚ) (t : ℤ)
    (h : bass ≤ 180 ∨ t - s.bpmDetection.lastPeakTime ≤ 200) :
    detectBPM bass t s = (s.currentBPM, s) := by
  unfold detectBPM
  rw [if_neg]
  rintro ⟨h1, h2⟩
  rcases h with h | h
  · exact absurd h1 (not_lt.mpr h)
  · exact absurd h2 (not_lt.mpr h)

/-- Witness for C9: a bass level of 0 on the fresh state registers no peak. -/
theorem detectBPM_subthreshold_frame_witness :
    detectBPM 0 0 initState = (initState.currentBPM, initState) :=
  detectBPM_subthreshold_frame initState 0 0 (Or.inl (by norm_num))

/-- Claim C7: `reset()` followed by `analyzeAudio` on any input produces exactly
the output (features and successor state) of a freshly constructed extractor
on that input; `reset` restores BPM 120 and empties both histories. -/
theorem reset_analyze_eq_fresh (s : ExtractorState) (spectrum : List ℕ)
    (t : ℤ) :
    analyzeAudio spectrum t (reset s) = analyzeAudio spectrum t initState ∧
    (reset s).currentBPM = 120 ∧
    (reset s).bpmDetection.peaks = [] ∧
    (reset s).bpmDetection.intervals = [] ∧
    reset s = initState :=
  ⟨rfl, rfl, rfl, rfl, rfl⟩

lemma stepIntervals_length_le {l : List ℤ} (h : l.length ≤ 9) :
    (stepIntervals l).length ≤ 8 := by
  unfold stepIntervals
  split
  · simpa using by omega
  · next h8 => omega

lemma stepPeaks_length_le {l : List ℤ} (h : l.length ≤ 11) :
    (stepPeaks l).length ≤ 10 := by
  unfold stepPeaks
  split
  · simpa using by omega
  · next h10 => omega

/-- Both histories of every reachable extractor state are bounded: at most 8
intervals and at most 10 peaks. -/
lemma reachable_hist_bounds {s : ExtractorState} (h : Reachable s) :
    s.bpmDetection.intervals.length ≤ 8 ∧
    s.bpmDetection.peaks.length ≤ 10 := by
  induction h with
  | init => simp [initState]
  | step bass t s _ ih =>
      unfold detectBPM
      split
      · unfold peakUpdate
        split <;> dsimp only
        · refine ⟨stepIntervals_length_le ?_, stepPeaks_length_le ?_⟩ <;>
            simp <;> omega
        · exact ⟨ih.1, stepPeaks_length_le (by simp; omega)⟩
      · exact ih

lemma stepPeaks_eq_drop {l : List ℤ} (h : l.length ≤ 11) :
    stepPeaks l = l.drop (l.length - 10) := by
  unfold stepPeaks
  split
  · next h10 => congr 1; omega
  · next h10 =>
      have hz : l.length - 10 = 0 := by omega
      rw [hz, List.drop_zero]

lemma stepIntervals_eq_drop {l : List ℤ} (h : l.length ≤ 9) :
    stepIntervals l = l.drop (l.length - 8) := by
  unfold stepIntervals
  split
  · next h8 => congr 1; omega
  · next h8 =>
      have hz : l.length - 8 = 0 := by omega
      rw [hz, List.drop_zero]

/-- Claim C8: after every `detectBPM` call on a reachable state, at most 8
intervals and at most 10 peak timestamps are stored, the oldest entry being
evicted first when a cap is reached, and on each registered peak the new
timestamp ends the peak history whether or not the BPM changed. -/
theorem detectBPM_history_bounded (s : ExtractorState) (h : Reachable s)
    (bass : ℚ) (t : ℤ) :
    (detectBPM bass t s).2.bpmDetection.intervals.length ≤ 8 ∧
    (detectBPM bass t s).2.bpmDetection.peaks.length ≤ 10 ∧
    (bass > 180 → 200 < t - s.bpmDetection.lastPeakTime →
      (detectBPM bass t s).2.bpmDetection.peaks =
        (s.bpmDetection.peaks ++ [t]).drop
          (s.bpmDetection.peaks.length + 1 - 10) ∧
      (detectBPM bass t s).2.bpmDetection.peaks.getLast? = some t ∧
      (s.bpmDetection.peaks = [] →
        (detectBPM bass t s).2.bpmDetection.intervals =
          s.bpmDetection.intervals) ∧
      (s.bpmDetection.peaks ≠ [] →
        ∃ i, (detectBPM bass t s).2.bpmDetection.intervals =
          (s.bpmDetection.intervals ++ [i]).drop
            (s.bpmDetection.intervals.length + 1 - 8))) := by
  obtain ⟨hi, hp⟩ := reachable_hist_bounds h
  obtain ⟨hi', hp'⟩ := reachable_hist_bounds (Reachable.step bass t s h)
  refine ⟨hi', hp', fun hb ht => ?_⟩
  have hcond : bass > 180 ∧ 200 < t - s.bpmDetection.lastPeakTime := ⟨hb, ht⟩
  have hstep : detectBPM bass t s = ((peakUpdate s t).currentBPM, peakUpdate s t) := by
    unfold detectBPM
    rw [if_pos hcond]
  rw [hstep]
  have hlen1 : (s.bpmDetection.peaks ++ [t]).length =
      s.bpmDetection.peaks.length + 1 := by simp
  have hpeaks : (peakUpdate s t).bpmDetection.peaks =
      stepPeaks (s.bpmDetection.peaks ++ [t]) := by
    unfold peakUpdate
    split <;> rfl
  have hdrop : stepPeaks (s.bpmDetection.peaks ++ [t]) =
      (s.bpmDetection.peaks ++ [t]).drop
        (s.bpmDetection.peaks.length + 1 - 10) := by
    rw [stepPeaks_eq_drop (by omega), hlen1]
  refine ⟨by rw [hpeaks, hdrop], ?_, ?_, ?_⟩
  · rw [hpeaks, hdrop,
      List.drop_append_of_le_length (by omega), List.getLast?_concat]
  · intro hnil
    unfold peakUpdate
    rw [if_neg (by simp [hnil])]
  · intro hnil
    have hgt : 1 < (s.bpmDetection.peaks ++ [t]).length := by
      rw [hlen1]
      have := List.length_pos.mpr hnil
      omega
    refine ⟨t - (s.bpmDetection.peaks ++ [t]).getD
      ((s.bpmDetection.peaks ++ [t]).length - 2) 0, ?_⟩
    unfold peakUpdate
    rw [if_pos hgt]
    dsimp only
    rw [stepIntervals_eq_drop (by simp; omega)]
    congr 1
    simp

/-- Witness for C8: an accepted first peak on the fresh state. -/
theorem detectBPM_history_bounded_witness :
    (detectBPM 200 300 initState).2.bpmDetection.intervals.length ≤ 8 ∧
    (detectBPM 200 300 initState).2.bpmDetection.peaks.length ≤ 10 ∧
    ((200 : ℚ) > 180 → 200 < 300 - initState.bpmDetection.lastPeakTime →
      (detectBPM 200 300 initState).2.bpmDetection.peaks =
        (initState.bpmDetection.peaks ++ [300]).drop
          (initState.bpmDetection.peaks.length + 1 - 10) ∧
      (detectBPM 200 300 initState).2.bpmDetection.peaks.getLast? =
        some 300 ∧
      (initState.bpmDetection.peaks = [] →
        (detectBPM 200 300 initState).2.bpmDetection.intervals =
          initState.bpmDetection.intervals) ∧
      (initState.bpmDetection.peaks ≠ [] →
        ∃ i, (detectBPM 200 300 initState).2.bpmDetection.intervals =
          (initState.bpmDetection.intervals ++ [i]).drop
            (initState.bpmDetection.intervals.length + 1 - 8))) :=
  detectBPM_history_bounded initState Reachable.init 200 300

end AudioInformationExtractor

namespace AudioAnalyzer

/-- `Math.floor(this.dataArray.length * 0.1)`: the end of the bass range. -/
def bassEnd (L : ℕ) : ℕ := L / 10

/-- `Math.floor(this.dataArray.length * 0.6)`: the end of the mid range and
the start of the treble range. -/
def midEnd (L : ℕ) : ℕ := 6 * L / 10

/-- The sum of squared magnitudes accumulated by `calculateVolume`. -/
def sumSq (s : List ℕ) : ℕ := (s.map (fun x => x * x)).sum

/-- `calculateVolume()` of `AudioProperties.tsx`:
`Math.sqrt(sum / length) / 255` over the squared magnitudes (RMS, normalised
by 255); `none` models the `NaN` produced on an empty array. -/
noncomputable def calculateVolume (s : List ℕ) : Option ℝ :=
  (jsDivQ (sumSq s : ℚ) (s.length : ℚ)).map
    (fun q : ℚ => Real.sqrt (q : ℝ) / 255)

/-- `calculateBassLevel()` of `AudioProperties.tsx`:
`(sum over [0, bassEnd)) / bassEnd / 255`. -/
def calculateBassLevel (s : List ℕ) : Option ℚ :=
  (jsDivQ (sliceSum s 0 (bassEnd s.length) : ℚ) (bassEnd s.length : ℚ)).map
    (fun q => q / 255)

/-- `calculateMidLevel()` of `AudioProperties.tsx`:
`(sum over [midStart, midEnd)) / (midEnd - midStart) / 255`. -/
def calculateMidLevel (s : List ℕ) : Option ℚ :=
  (jsDivQ (sliceSum s (bassEnd s.length) (midEnd s.length) : ℚ)
      ((midEnd s.length - bassEnd s.length : ℕ) : ℚ)).map
    (fun q => q / 255)

/-- `calculateTrebleLevel()` of `AudioProperties.tsx`:
`(sum over [trebleStart, length)) / (length - trebleStart) / 255`. -/
def calculateTrebleLevel (s : List ℕ) : Option ℚ :=
  (jsDivQ (sliceSum s (midEnd s.length) s.length : ℚ)
      ((s.length - midEnd s.length : ℕ) : ℚ)).map
    (fun q => q / 255)

/-- The maximum-scan loop of `calculateDominantFrequency`: fold over the
indexed magnitudes, keeping `(maxIndex, maxValue)`, updating on a strict
increase. -/
def domScan (s : List ℕ) : ℕ × ℕ :=
  s.enum.foldl (fun acc p => if acc.2 < p.2 then (p.1, p.2) else acc) (0, 0)

/-- `calculateDominantFrequency()` of `AudioProperties.tsx`:
`maxIndex * sampleRate / (2 * length)`. -/
def calculateDominantFrequency (s : List ℕ) (sampleRate : ℚ) : Option ℚ :=
  jsDivQ ((domScan s).1 * sampleRate) (2 * s.length)

/-- `calculateEnergy()` of `AudioProperties.tsx`: `sum / length / 255`. -/
def calculateEnergy (s : List ℕ) : Option ℚ :=
  (jsDivQ (s.sum : ℚ) (s.length : ℚ)).map (fun q => q / 255)

end AudioAnalyzer

/-- Modelled from the spec's words (§4.1): the root-mean-square of a
sequence of magnitudes. -/
noncomputable def specRMS (l : List ℝ) : ℝ :=
  Real.sqrt ((l.map (fun x => x ^ 2)).sum / l.length)

/-- Modelled from the spec's words (§4.1): the plain arithmetic mean of a
sequence of magnitudes. -/
def specMean (l : List ℚ) : ℚ :=
  l.sum / l.length

/-- The magnitudes of a spectrum normalised from `[0, 255]` to `[0, 1]`,
as rationals. -/
def normalizedQ (s : List ℕ) : List ℚ :=
  s.map (fun x : ℕ => (x : ℚ) / 255)

/-- The magnitudes of a spectrum normalised from `[0, 255]` to `[0, 1]`,
as reals. -/
noncomputable def normalizedR (s : List ℕ) : List ℝ :=
  s.map (fun x : ℕ => (x : ℝ) / 255)

lemma sliceSum_eq_zero {s : List ℕ} (hz : ∀ x ∈ s, x = 0) (a b : ℕ) :
    sliceSum s a b = 0 :=
  List.sum_eq_zero fun x hx =>
    hz x (List.mem_of_mem_drop (List.mem_of_mem_take hx))

lemma sumSq_eq_zero {s : List ℕ} (hz : ∀ x ∈ s, x = 0) :
    AudioAnalyzer.sumSq s = 0 :=
  List.sum_eq_zero fun x hx => by
    obtain ⟨y, hy, rfl⟩ := List.mem_map.mp hx
    simp [hz y hy]

lemma foldl_domStep_zero (l : List (ℕ × ℕ)) (h : ∀ p ∈ l, p.2 = 0) :
    l.foldl (fun acc p => if acc.2 < p.2 then (p.1, p.2) else acc)
      ((0 : ℕ), (0 : ℕ)) = (0, 0) := by
  induction l with
  | nil => rfl
  | cons p t ih =>
      have hp2 := h p (by simp)
      simp only [List.foldl_cons, hp2]
      rw [if_neg (by omega)]
      exact ih fun q hq => h q (by simp [hq])

lemma domScan_eq_zero {s : List ℕ} (hz : ∀ x ∈ s, x = 0) :
    AudioAnalyzer.domScan s = (0, 0) := by
  unfold AudioAnalyzer.domScan
  refine foldl_domStep_zero _ fun p hp => ?_
  obtain ⟨i, x⟩ := p
  obtain ⟨hi, hx⟩ := List.mem_enum hp
  simpa [hx] using hz _ (List.getElem_mem hi)

/-- Claim C2 counterexample: on the empty spectrum the volume of
`AudioInformationExtractor`, and the energy and dominant frequency of
`AudioAnalyzer`, evaluate `0 / 0` and yield `NaN` (modelled `none`), not 0;
likewise the mid band level on the all-zero spectrum `[0]` of length 1. -/
theorem empty_spectrum_not_zero :
    AudioInformationExtractor.calculateVolume [] = none ∧
    AudioAnalyzer.calculateEnergy [] = none ∧
    AudioAnalyzer.calculateDominantFrequency [] 44100 = none ∧
    AudioAnalyzer.calculateMidLevel [0] = none := by
  refine ⟨?_, ?_, ?_, ?_⟩
  · simp [AudioInformationExtractor.calculateVolume, jsDivQ]
  · simp [AudioAnalyzer.calculateEnergy, jsDivQ]
  · simp [AudioAnalyzer.calculateDominantFrequency, jsDivQ]
  · simp [AudioAnalyzer.calculateMidLevel, jsDivQ, AudioAnalyzer.midEnd,
      AudioAnalyzer.bassEnd]

/-- Claim C2 (amended): on an all-zero spectrum of length at least 10 every
feature-extraction operation returns a well-defined 0, and the fixed-divisor
band means also return 0 on the empty spectrum; but (see the
counterexample) the operations that divide by the spectrum length or by a
proportional range size return `NaN`, not 0, on an empty spectrum. -/
theorem zero_spectrum_zero_features (s : List ℕ) (hz : ∀ x ∈ s, x = 0)
    (hlen : 10 ≤ s.length) (sampleRate : ℚ) :
    AudioInformationExtractor.extractFrequencyBands s = ⟨0, 0, 0⟩ ∧
    AudioInformationExtractor.calculateVolume s = some 0 ∧
    AudioAnalyzer.calculateVolume s = some 0 ∧
    AudioAnalyzer.calculateBassLevel s = some 0 ∧
    AudioAnalyzer.calculateMidLevel s = some 0 ∧
    AudioAnalyzer.calculateTrebleLevel s = some 0 ∧
    AudioAnalyzer.calculateEnergy s = some 0 ∧
    AudioAnalyzer.calculateDominantFrequency s sampleRate = some 0 ∧
    AudioInformationExtractor.extractFrequencyBands [] = ⟨0, 0, 0⟩ := by
  have hL : (s.length : ℚ) ≠ 0 := by
    exact_mod_cast Nat.cast_ne_zero.mpr (by omega)
  have hbassEnd : 1 ≤ AudioAnalyzer.bassEnd s.length := by
    unfold AudioAnalyzer.bassEnd; omega
  have hmidGap : 1 ≤ AudioAnalyzer.midEnd s.length -
      AudioAnalyzer.bassEnd s.length := by
    unfold AudioAnalyzer.midEnd AudioAnalyzer.bassEnd; omega
  have htrebGap : 1 ≤ s.length - AudioAnalyzer.midEnd s.length := by
    unfold AudioAnalyzer.midEnd; omega
  refine ⟨?_, ?_, ?_, ?_, ?_, ?_, ?_, ?_, ?_⟩
  · simp [AudioInformationExtractor.extractFrequencyBands,
      sliceSum_eq_zero hz]
  · simp [AudioInformationExtractor.calculateVolume, jsDivQ,
      List.sum_eq_zero hz, hL]
  · simp [AudioAnalyzer.calculateVolume, jsDivQ, sumSq_eq_zero hz, hL]
  · simp [AudioAnalyzer.calculateBassLevel, jsDivQ, sliceSum_eq_zero hz]
    intro hc
    exact absurd (Nat.cast_eq_zero.mp hc) (by omega)
  · simp [AudioAnalyzer.calculateMidLevel, jsDivQ, sliceSum_eq_zero hz]
    intro hc
    exact absurd (Nat.cast_eq_zero.mp hc) (by omega)
  · simp [AudioAnalyzer.calculateTrebleLevel, jsDivQ, sliceSum_eq_zero hz]
    intro hc
    exact absurd (Nat.cast_eq_zero.mp hc) (by omega)
  · simp [AudioAnalyzer.calculateEnergy, jsDivQ, List.sum_eq_zero hz, hL]
  · simp [AudioAnalyzer.calculateDominantFrequency, jsDivQ,
      domScan_eq_zero hz, hL]
  · simp [AudioInformationExtractor.extractFrequencyBands, sliceSum]

/-- Witness for C2 (amended) at the all-zero spectrum of length 10. -/
theorem zero_spectrum_zero_features_witness :
    (∀ x ∈ List.replicate 10 (0 : ℕ), x = 0) ∧
    10 ≤ (List.replicate 10 (0 : ℕ)).length ∧
    (AudioInformationExtractor.extractFrequencyBands
        (List.replicate 10 (0 : ℕ)) = ⟨0, 0, 0⟩ ∧
      AudioInformationExtractor.calculateVolume
        (List.replicate 10 (0 : ℕ)) = some 0 ∧
      AudioAnalyzer.calculateVolume (List.replicate 10 (0 : ℕ)) = some 0 ∧
      AudioAnalyzer.calculateBassLevel (List.replicate 10 (0 : ℕ)) =
        some 0 ∧
      AudioAnalyzer.calculateMidLevel (List.replicate 10 (0 : ℕ)) =
        some 0 ∧
      AudioAnalyzer.calculateTrebleLevel (List.replicate 10 (0 : ℕ)) =
        some 0 ∧
      AudioAnalyzer.calculateEnergy (List.replicate 10 (0 : ℕ)) = some 0 ∧
      AudioAnalyzer.calculateDominantFrequency (List.replicate 10 (0 : ℕ))
        44100 = some 0 ∧
      AudioInformationExtractor.extractFrequencyBands [] = ⟨0, 0, 0⟩) :=
  ⟨by decide, by decide,
    zero_spectrum_zero_features _ (by decide) (by decide) 44100⟩

lemma sum_map_div_const (s : List ℕ) :
    (s.map (fun x : ℕ => (x : ℚ) / 255)).sum = (s.sum : ℚ) / 255 := by
  induction s with
  | nil => simp
  | cons a t ih =>
      simp only [List.map_cons, List.sum_cons, Nat.cast_add]
      rw [ih]
      ring

lemma sum_normalized_sq (s : List ℕ) :
    ((s.map (fun x : ℕ => (x : ℝ) / 255)).map (fun x => x ^ 2)).sum =
      (AudioAnalyzer.sumSq s : ℝ) / 65025 := by
  unfold AudioAnalyzer.sumSq
  induction s with
  | nil => simp
  | cons a t ih =>
      simp only [List.map_cons, List.sum_cons, Nat.cast_add, Nat.cast_mul]
      rw [ih]
      ring

/-- Claim C3: the `AudioAnalyzer` volume feature is exactly the root-mean-square
of the normalised magnitudes, the energy feature is exactly their plain
arithmetic mean, both are separate outputs, and on the non-constant
spectrum `[0, 255]` the two values differ. -/
theorem volume_rms_energy_mean (s : List ℕ) (h : s ≠ []) :
    AudioAnalyzer.calculateVolume s = some (specRMS (normalizedR s)) ∧
    AudioAnalyzer.calculateEnergy s = some (specMean (normalizedQ s)) ∧
    AudioAnalyzer.calculateEnergy [0, 255] = some (1 / 2) ∧
    AudioAnalyzer.calculateVolume [0, 255] ≠ some ((1 : ℝ) / 2) := by
  have hlenQ : (s.length : ℚ) ≠ 0 := by
    simpa using List.length_pos.mpr h |>.ne'
  have hlenR : (s.length : ℝ) ≠ 0 := by
    simpa using List.length_pos.mpr h |>.ne'
  refine ⟨?_, ?_, ?_, ?_⟩
  · have hjs : jsDivQ (AudioAnalyzer.sumSq s : ℚ) (s.length : ℚ) =
        some ((AudioAnalyzer.sumSq s : ℚ) / (s.length : ℚ)) := by
      unfold jsDivQ
      exact if_neg hlenQ
    unfold AudioAnalyzer.calculateVolume
    rw [hjs, Option.map_some']
    congr 1
    unfold specRMS normalizedR
    rw [sum_normalized_sq, List.length_map]
    rw [div_right_comm ((AudioAnalyzer.sumSq s : ℝ)) 65025 (s.length : ℝ),
      Real.sqrt_div (by positivity)]
    have h255 : Real.sqrt 65025 = 255 := by
      rw [show (65025 : ℝ) = 255 ^ 2 by norm_num, Real.sqrt_sq (by norm_num)]
    rw [h255]
    congr 1
    push_cast
    ring
  · have hjs : jsDivQ (s.sum : ℚ) (s.length : ℚ) =
        some ((s.sum : ℚ) / (s.length : ℚ)) := by
      unfold jsDivQ
      exact if_neg hlenQ
    unfold AudioAnalyzer.calculateEnergy
    rw [hjs, Option.map_some']
    congr 1
    unfold specMean normalizedQ
    rw [sum_map_div_const, List.length_map, div_right_comm]
  · norm_num [AudioAnalyzer.calculateEnergy, jsDivQ]
  · have hval : AudioAnalyzer.calculateVolume [0, 255] =
        some (Real.sqrt ((65025 : ℝ) / 2) / 255) := by
      unfold AudioAnalyzer.calculateVolume jsDivQ AudioAnalyzer.sumSq
      norm_num
    rw [hval]
    intro hsome
    have h1 : Real.sqrt ((65025 : ℝ) / 2) = 255 / 2 := by
      have h2 := Option.some.inj hsome
      linarith
    have h3 := Real.sq_sqrt (show (0 : ℝ) ≤ 65025 / 2 by norm_num)
    rw [h1] at h3
    norm_num at h3

/-- Witness for C3 at the spectrum `[0, 255]`. -/
theorem volume_rms_energy_mean_witness :
    (([0, 255] : List ℕ) ≠ []) ∧
    (AudioAnalyzer.calculateVolume [0, 255] =
        some (specRMS (normalizedR [0, 255])) ∧
      AudioAnalyzer.calculateEnergy [0, 255] =
        some (specMean (normalizedQ [0, 255])) ∧
      AudioAnalyzer.calculateEnergy [0, 255] = some (1 / 2) ∧
      AudioAnalyzer.calculateVolume [0, 255] ≠ some ((1 : ℝ) / 2)) :=
  ⟨by decide, volume_rms_energy_mean [0, 255] (by decide)⟩

open AudioInformationExtractor

lemma mem_le_foldr_max {x : ℕ} {l : List ℕ} (hx : x ∈ l) :
    x ≤ l.foldr max 0 := by
  induction l with
  | nil => cases hx
  | cons a t ih =>
      simp only [List.foldr_cons]
      rcases List.mem_cons.mp hx with rfl | h
      · exact le_max_left _ _
      · exact le_trans (ih h) (le_max_right _ _)

lemma sliceSum_le (s : List ℕ) (a b : ℕ) :
    sliceSum s a b ≤ (b - a) * (s.foldr max 0) := by
  unfold sliceSum
  calc ((s.drop a).take (b - a)).sum
      ≤ ((s.drop a).take (b - a)).length • (s.foldr max 0) :=
        List.sum_le_card_nsmul _ _ fun x hx =>
          mem_le_foldr_max (List.mem_of_mem_drop (List.mem_of_mem_take hx))
    _ ≤ (b - a) * (s.foldr max 0) := by
        rw [smul_eq_mul]
        exact Nat.mul_le_mul_right _ (by
          rw [List.length_take]
          exact min_le_left _ _)

/-- Claim C4 counterexample: on a frame of length 512 the three slice ranges of
`extractFrequencyBands` (`[0,50)`, `[50,150)`, `[150,256)`) concatenate to
only the first 256 entries, so they do not cover every index of the
spectrum. -/
theorem bands_not_cover_512 :
    ((List.replicate 512 (0 : ℕ)).drop 0).take 50 ++
        ((List.replicate 512 (0 : ℕ)).drop 50).take 100 ++
        ((List.replicate 512 (0 : ℕ)).drop 150).take 106 ≠
      List.replicate 512 (0 : ℕ) ∧
    (((List.replicate 512 (0 : ℕ)).drop 0).take 50 ++
        ((List.replicate 512 (0 : ℕ)).drop 50).take 100 ++
        ((List.replicate 512 (0 : ℕ)).drop 150).take 106).length = 256 ∧
    (List.replicate 512 (0 : ℕ)).length = 512 := by
  refine ⟨?_, ?_, ?_⟩
  · intro hEq
    have hlen := congrArg List.length hEq
    simp only [List.length_append, List.length_take, List.length_drop,
      List.length_replicate] at hlen
    omega
  · simp only [List.length_append, List.length_take, List.length_drop,
      List.length_replicate]
    omega
  · simp only [List.length_replicate]

/-- Claim C4 (amended): for every frame of length exactly 256 (the analyser's bin
count in the live pipeline) the three slice ranges of
`extractFrequencyBands` are contiguous and partition the spectrum with no
overlap or gap, and each band value equals the arithmetic mean of its range
and lies in `[0, max magnitude]`; for frames of other lengths (e.g. 512, see
the counterexample) the ranges need not cover every index. -/
theorem bands_partition_mean_bounds (s : List ℕ) (h : s.length = 256) :
    ((s.drop 0).take 50 ++ (s.drop 50).take 100 ++ (s.drop 150).take 106
        = s) ∧
    (extractFrequencyBands s).bass =
      (((s.drop 0).take 50).sum : ℚ) / (((s.drop 0).take 50).length : ℚ) ∧
    (extractFrequencyBands s).mid =
      (((s.drop 50).take 100).sum : ℚ) / (((s.drop 50).take 100).length : ℚ) ∧
    (extractFrequencyBands s).treble =
      (((s.drop 150).take 106).sum : ℚ) /
        (((s.drop 150).take 106).length : ℚ) ∧
    (0 ≤ (extractFrequencyBands s).bass ∧
      (extractFrequencyBands s).bass ≤ ((s.foldr max 0 : ℕ) : ℚ)) ∧
    (0 ≤ (extractFrequencyBands s).mid ∧
      (extractFrequencyBands s).mid ≤ ((s.foldr max 0 : ℕ) : ℚ)) ∧
    (0 ≤ (extractFrequencyBands s).treble ∧
      (extractFrequencyBands s).treble ≤ ((s.foldr max 0 : ℕ) : ℚ)) := by
  have hb : ((s.drop 0).take 50).length = 50 := by simp [h]
  have hm : ((s.drop 50).take 100).length = 100 := by simp [h]
  have ht : ((s.drop 150).take 106).length = 106 := by simp [h]
  have hsb : (sliceSum s 0 50 : ℚ) ≤ 50 * ((s.foldr max 0 : ℕ) : ℚ) := by
    have hn := sliceSum_le s 0 50
    norm_num at hn
    exact_mod_cast hn
  have hsm : (sliceSum s 50 150 : ℚ) ≤ 100 * ((s.foldr max 0 : ℕ) : ℚ) := by
    have hn := sliceSum_le s 50 150
    norm_num at hn
    exact_mod_cast hn
  have hst : (sliceSum s 150 256 : ℚ) ≤ 106 * ((s.foldr max 0 : ℕ) : ℚ) := by
    have hn := sliceSum_le s 150 256
    norm_num at hn
    exact_mod_cast hn
  refine ⟨?_, ?_, ?_, ?_, ⟨?_, ?_⟩, ⟨?_, ?_⟩, ⟨?_, ?_⟩⟩
  · rw [List.drop_zero, ← List.take_add, show (50 : ℕ) + 100 = 150 from rfl,
      ← List.take_add, show (150 : ℕ) + 106 = 256 from rfl, ← h,
      List.take_length]
  · unfold extractFrequencyBands sliceSum
    rw [hb]
    norm_num
  · unfold extractFrequencyBands sliceSum
    rw [hm]
    norm_num
  · unfold extractFrequencyBands sliceSum
    rw [ht]
    norm_num
  · show (0 : ℚ) ≤ (sliceSum s 0 50 : ℚ) / 50
    positivity
  · show (sliceSum s 0 50 : ℚ) / 50 ≤ ((s.foldr max 0 : ℕ) : ℚ)
    rw [div_le_iff₀ (by norm_num)]
    linarith
  · show (0 : ℚ) ≤ (sliceSum s 50 150 : ℚ) / 100
    positivity
  · show (sliceSum s 50 150 : ℚ) / 100 ≤ ((s.foldr max 0 : ℕ) : ℚ)
    rw [div_le_iff₀ (by norm_num)]
    linarith
  · show (0 : ℚ) ≤ (sliceSum s 150 256 : ℚ) / 106
    positivity
  · show (sliceSum s 150 256 : ℚ) / 106 ≤ ((s.foldr max 0 : ℕ) : ℚ)
    rw [div_le_iff₀ (by norm_num)]
    linarith

/-- Witness for C4 (amended) at the all-zero frame of length 256. -/
theorem bands_partition_mean_bounds_witness :
    (List.replicate 256 (0 : ℕ)).length = 256 ∧
    (((List.replicate 256 (0 : ℕ)).drop 0).take 50 ++
        ((List.replicate 256 (0 : ℕ)).drop 50).take 100 ++
        ((List.replicate 256 (0 : ℕ)).drop 150).take 106
        = List.replicate 256 (0 : ℕ) ∧
      (extractFrequencyBands (List.replicate 256 (0 : ℕ))).bass =
        ((((List.replicate 256 (0 : ℕ)).drop 0).take 50).sum : ℚ) /
          ((((List.replicate 256 (0 : ℕ)).drop 0).take 50).length : ℚ) ∧
      (extractFrequencyBands (List.replicate 256 (0 : ℕ))).mid =
        ((((List.replicate 256 (0 : ℕ)).drop 50).take 100).sum : ℚ) /
          ((((List.replicate 256 (0 : ℕ)).drop 50).take 100).length : ℚ) ∧
      (extractFrequencyBands (List.replicate 256 (0 : ℕ))).treble =
        ((((List.replicate 256 (0 : ℕ)).drop 150).take 106).sum : ℚ) /
          ((((List.replicate 256 (0 : ℕ)).drop 150).take 106).length : ℚ) ∧
      (0 ≤ (extractFrequencyBands (List.replicate 256 (0 : ℕ))).bass ∧
        (extractFrequencyBands (List.replicate 256 (0 : ℕ))).bass ≤
          (((List.replicate 256 (0 : ℕ)).foldr max 0 : ℕ) : ℚ)) ∧
      (0 ≤ (extractFrequencyBands (List.replicate 256 (0 : ℕ))).mid ∧
        (extractFrequencyBands (List.replicate 256 (0 : ℕ))).mid ≤
          (((List.replicate 256 (0 : ℕ)).foldr max 0 : ℕ) : ℚ)) ∧
      (0 ≤ (extractFrequencyBands (List.replicate 256 (0 : ℕ))).treble ∧
        (extractFrequencyBands (List.replicate 256 (0 : ℕ))).treble ≤
          (((List.replicate 256 (0 : ℕ)).foldr max 0 : ℕ) : ℚ))) :=
  ⟨by simp only [List.length_replicate],
    bands_partition_mean_bounds _ (by simp only [List.length_replicate])⟩

namespace AudioVisualizer

/-- The closed shape set of a particle. -/
inductive ShapeType
  | circle
  | square
  | triangle
deriving DecidableEq, Repr

/-- The `Particle` interface of `AudioVisualizer.tsx`.  `life` counts whole
ticks (it starts at 0 and is incremented by `++`); every other numeric field
is a JS number, idealised as an exact rational. -/
structure Particle where
  x : ℚ
  y : ℚ
  vx : ℚ
  vy : ℚ
  size : ℚ
  hue : ℚ
  alpha : ℚ
  life : ℕ
  maxLife : ℚ
  type : ShapeType
  scale : ℚ
  scaleVel : ℚ
  rotation : ℚ
  rotationVel : ℚ
  saturation : ℚ
  lightness : ℚ
deriving DecidableEq, Repr

/-- `maxParticles` of `createParticles` in `AudioVisualizer.tsx`. -/
def maxParticles : ℕ := 250

/-- The pool-capping step at the end of `createParticles`: after pushing the
newly created particles, `slice(-maxParticles)` keeps only the most recently
inserted `maxParticles` entries whenever the pool exceeds capacity. -/
def spawnStep (pool newParticles : List Particle) : List Particle :=
  if maxParticles < (pool ++ newParticles).length then
    (pool ++ newParticles).drop ((pool ++ newParticles).length - maxParticles)
  else
    pool ++ newParticles

/-- `bpmMovementMultiplier` of the `animate` loop: `(bpm / 120) * 0.4`. -/
def bpmMovementMultiplier (bpm : ℚ) : ℚ :=
  (bpm / 120) * (2 / 5)

/-- The toroidal wrap of one coordinate in the `animate` loop: two sequenced
`if` statements against the margins `-100` and `limit + 100`. -/
def wrapCoord (limit v : ℚ) : ℚ :=
  if (if v < -100 then limit + 100 else v) > limit + 100 then -100
  else if v < -100 then limit + 100 else v

/-- The per-tick particle mutation of the `animate` loop in
`AudioVisualizer.tsx`: advance position, age, damp and gravity-bias the
velocity, shrink the scale (floored at 0.1), advance the rotation, drift the
hue modulo 360, brighten the lightness capped at 100, and wrap both
coordinates. -/
def tickUpdate (bpm W H : ℚ) (p : Particle) : Particle :=
  { p with
    x := wrapCoord W (p.x + p.vx * bpmMovementMultiplier bpm),
    y := wrapCoord H (p.y + p.vy * bpmMovementMultiplier bpm),
    life := p.life + 1,
    vx := p.vx * (39 / 40),
    vy := p.vy * (39 / 40) + (3 / 20) * bpmMovementMultiplier bpm,
    scale := max (1 / 10) (p.scale + p.scaleVel),
    rotation := p.rotation + p.rotationVel * bpmMovementMultiplier bpm,
    hue := jsMod (p.hue + (1 / 2) * bpmMovementMultiplier bpm) 360,
    lightness := min 100 (p.lightness + 1 / 10) }

/-- The particle-filter pass of the `animate` loop: mutate every particle,
keep exactly those whose incremented age is still below their maximum
lifetime. -/
def updateParticles (bpm W H : ℚ) (pool : List Particle) : List Particle :=
  (pool.map (tickUpdate bpm W H)).filter fun q => (q.life : ℚ) < q.maxLife

/-- Iterated animation ticks of the particle pool. -/
def iterateTicks (bpm W H : ℚ) : ℕ → List Particle → List Particle
  | 0, pool => pool
  | n + 1, pool => iterateTicks bpm W H n (updateParticles bpm W H pool)

/-- Claim C5: after any spawn step the pool holds at most 250 particles (its
capacity), even for an arbitrarily large batch, and the survivors are
exactly the most recently inserted suffix — the oldest are evicted first. -/
theorem spawnStep_capacity (pool newParticles : List Particle) :
    (spawnStep pool newParticles).length ≤ maxParticles ∧
    (spawnStep pool newParticles).length =
      min (pool ++ newParticles).length maxParticles ∧
    spawnStep pool newParticles =
      (pool ++ newParticles).drop
        ((pool ++ newParticles).length - maxParticles) := by
  unfold spawnStep maxParticles
  split
  · next hlt =>
      refine ⟨?_, ?_, rfl⟩
      · rw [List.length_drop]
        omega
      · rw [List.length_drop]
        omega
  · next hge =>
      push_neg at hge
      refine ⟨hge, by omega, ?_⟩
      rw [Nat.sub_eq_zero_of_le hge, List.drop_zero]

lemma tickUpdate_life (bpm W H : ℚ) (p : Particle) :
    (tickUpdate bpm W H p).life = p.life + 1 := rfl

lemma tickUpdate_maxLife (bpm W H : ℚ) (p : Particle) :
    (tickUpdate bpm W H p).maxLife = p.maxLife := rfl

lemma iterateTicks_nil (bpm W H : ℚ) (n : ℕ) :
    iterateTicks bpm W H n [] = [] := by
  induction n with
  | zero => rfl
  | succ m ih =>
      show iterateTicks bpm W H m (updateParticles bpm W H []) = []
      simpa [updateParticles] using ih

lemma updateParticles_singleton_keep {bpm W H : ℚ} {p : Particle}
    (h : ((p.life + 1 : ℕ) : ℚ) < p.maxLife) :
    updateParticles bpm W H [p] = [tickUpdate bpm W H p] := by
  have h1 : ((p.life : ℚ) + 1) < p.maxLife := by push_cast at h; exact h
  simp [updateParticles, List.filter, tickUpdate_life, tickUpdate_maxLife, h1]

lemma updateParticles_singleton_del {bpm W H : ℚ} {p : Particle}
    (h : ¬ ((p.life + 1 : ℕ) : ℚ) < p.maxLife) :
    updateParticles bpm W H [p] = [] := by
  have h1 : ¬ ((p.life : ℚ) + 1) < p.maxLife := by push_cast at h; exact h
  simp [updateParticles, List.filter, tickUpdate_life, tickUpdate_maxLife, h1]

/-- Claim C6: a particle survives each tick with its age incremented by exactly 1,
and it is removed on exactly the first tick at which its incremented age
reaches its maximum lifetime: after `t ≥ 1` ticks the particle is gone if
and only if `life + t ≥ maxLife`, and while it survives its age is exactly
`life + t`. -/
theorem particle_age_lifetime (bpm W H : ℚ) (p : Particle) (t : ℕ)
    (ht : 1 ≤ t) :
    (iterateTicks bpm W H t [p] = [] ↔
      p.maxLife ≤ ((p.life + t : ℕ) : ℚ)) ∧
    ∀ q ∈ iterateTicks bpm W H t [p], q.life = p.life + t := by
  induction t generalizing p with
  | zero => exact absurd ht (by omega)
  | succ n ih =>
      have hstep : iterateTicks bpm W H (n + 1) [p] =
          iterateTicks bpm W H n (updateParticles bpm W H [p]) := rfl
      by_cases hkeep : ((p.life + 1 : ℕ) : ℚ) < p.maxLife
      · rw [hstep, updateParticles_singleton_keep hkeep]
        cases n with
        | zero =>
            simp only [iterateTicks]
            constructor
            · constructor
              · intro habs
                exact absurd habs (by simp)
              · intro hge
                exact absurd hkeep (not_lt.mpr hge)
            · intro q hq
              have hq1 : q = tickUpdate bpm W H p := by simpa using hq
              rw [hq1, tickUpdate_life]
        | succ m =>
            obtain ⟨ih1, ih2⟩ := ih (tickUpdate bpm W H p) (by omega)
            constructor
            · rw [ih1, tickUpdate_maxLife, tickUpdate_life,
                show p.life + 1 + (m + 1) = p.life + (m + 1 + 1) by omega]
            · intro q hq
              have hql := ih2 q hq
              rw [tickUpdate_life] at hql
              omega
      · have hdel : iterateTicks bpm W H (n + 1) [p] = [] := by
          rw [hstep, updateParticles_singleton_del hkeep, iterateTicks_nil]
        rw [hdel]
        push_neg at hkeep
        constructor
        · refine ⟨fun _ => ?_, fun _ => rfl⟩
          calc p.maxLife ≤ ((p.life + 1 : ℕ) : ℚ) := hkeep
            _ ≤ ((p.life + (n + 1) : ℕ) : ℚ) :=
                Nat.cast_le.mpr
                  (Nat.add_le_add_left (Nat.succ_le_succ (Nat.zero_le n))
                    p.life)
        · intro q hq
          exact absurd hq (List.not_mem_nil q)

/-- A concrete particle (used to instantiate particle theorems): fresh
(`life = 0`), lifetime 2 ticks, hue 10, lightness 50. -/
def sampleParticle : Particle :=
  { x := 0, y := 0, vx := 1, vy := 1, size := 5, hue := 10, alpha := 1,
    life := 0, maxLife := 2, type := ShapeType.circle, scale := 1,
    scaleVel := 0, rotation := 0, rotationVel := 0, saturation := 100,
    lightness := 50 }

/-- Witness for C6: a fresh particle with lifetime 2 survives one tick with
age exactly 1. -/
theorem particle_age_lifetime_witness :
    1 ≤ 1 ∧
    ((iterateTicks 120 800 600 1 [sampleParticle] = [] ↔
        sampleParticle.maxLife ≤ ((sampleParticle.life + 1 : ℕ) : ℚ)) ∧
      ∀ q ∈ iterateTicks 120 800 600 1 [sampleParticle],
        q.life = sampleParticle.life + 1) :=
  ⟨le_refl 1, particle_age_lifetime 120 800 600 sampleParticle 1 (le_refl 1)⟩

lemma jsMod_nonneg_lt {a : ℚ} (ha : 0 ≤ a) :
    0 ≤ jsMod a 360 ∧ jsMod a 360 < 360 := by
  unfold jsMod ratTrunc
  rw [if_pos (by positivity)]
  have h1 : ((⌊a / 360⌋ : ℤ) : ℚ) ≤ a / 360 := Int.floor_le _
  have h2 : a / 360 < (⌊a / 360⌋ : ℤ) + 1 := Int.lt_floor_add_one _
  constructor <;> nlinarith [h1, h2]

/-- The `(hue, saturation, lightness)` triple returned by
`getFrequencyColor`. -/
structure HSL where
  hue : ℚ
  saturation : ℚ
  lightness : ℚ
deriving DecidableEq, Repr

/-- `getFrequencyColor` of `AudioVisualizer.tsx`, with the four
`Math.random()` draws passed explicitly (`rNoise` for the unconditional
noise-hue draw, `rHue` for the branch hue jitter, `rSat` and `rLight` for
saturation and lightness): a priority cascade bass → mid → treble →
fallback. -/
def getFrequencyColor (bass mid treble : ℚ) (rNoise rHue rSat rLight : ℚ) :
    HSL :=
  if bass > 200 then
    { hue := 280 + (rHue - 1 / 2) * 60,
      saturation := 100,
      lightness := 40 + rLight * 30 }
  else if mid > 180 then
    { hue := 120 + (rHue - 1 / 2) * 60,
      saturation := 90 + rSat * 10,
      lightness := 45 + rLight * 25 }
  else if treble > 160 then
    { hue := 20 + (rHue - 1 / 2) * 80,
      saturation := 85 + rSat * 15,
      lightness := 50 + rLight * 20 }
  else
    { hue := rNoise * 360,
      saturation := 70 + rSat * 30,
      lightness := 55 + rLight * 20 }

/-- Claim C10 counterexample: the treble branch of `getFrequencyColor`
spawns hue −20 (hue jitter draw 0), and one tick at BPM 120 drifts that hue
to −99/5 = −19.8: the JS truncating `%` keeps a negative dividend negative,
so the wrapped hue is *not* within `[0, 360)`. -/
theorem negative_hue_not_wrapped :
    (getFrequencyColor 0 0 200 0 0 0 0).hue = -20 ∧
    (tickUpdate 120 800 600 { sampleParticle with hue := -20 }).hue =
      -(99 / 5 : ℚ) ∧
    (tickUpdate 120 800 600 { sampleParticle with hue := -20 }).hue < 0 := by
  have h1 : (getFrequencyColor 0 0 200 0 0 0 0).hue = -20 := by
    norm_num [getFrequencyColor]
  have h2 : (tickUpdate 120 800 600 { sampleParticle with hue := -20 }).hue =
      -(99 / 5 : ℚ) := by
    show jsMod ((-20 : ℚ) + 1 / 2 * bpmMovementMultiplier 120) 360 =
      -(99 / 5 : ℚ)
    have hc : ((-20 : ℚ) + 1 / 2 * bpmMovementMultiplier 120) = -(99 / 5) := by
      norm_num [bpmMovementMultiplier]
    rw [hc]
    unfold jsMod ratTrunc
    rw [if_neg (by norm_num)]
    have hceil : ⌈(-(99 / 5 : ℚ)) / 360⌉ = 0 := by
      rw [Int.ceil_eq_zero_iff]
      constructor <;> norm_num
    rw [hceil]
    norm_num
  exact ⟨h1, h2, by rw [h2]; norm_num⟩

/-- Claim C10 (amended): on every tick a surviving particle's lightness
becomes exactly `min (lightness + 0.1) 100` — so it never exceeds 100 after
a tick and is non-decreasing whenever it was at most 100 — and the hue
drift's truncating `%` wrap keeps the hue in `[0, 360)` whenever the
incoming hue is non-negative and the BPM is non-negative; a particle
spawned with a negative hue (the treble branch spawns hues down to −20, see
the counterexample) keeps a negative hue after the wrap. -/
theorem particle_lightness_hue (bpm W H : ℚ) (p : Particle) :
    (tickUpdate bpm W H p).lightness = min 100 (p.lightness + 1 / 10) ∧
    (tickUpdate bpm W H p).lightness ≤ 100 ∧
    (p.lightness ≤ 100 → p.lightness ≤ (tickUpdate bpm W H p).lightness) ∧
    (0 ≤ p.hue → 0 ≤ bpm →
      0 ≤ (tickUpdate bpm W H p).hue ∧ (tickUpdate bpm W H p).hue < 360) := by
  refine ⟨rfl, min_le_left _ _, ?_, ?_⟩
  · intro h
    show p.lightness ≤ min 100 (p.lightness + 1 / 10)
    exact le_min h (by linarith)
  · intro hhue hbpm
    show 0 ≤ jsMod (p.hue + 1 / 2 * bpmMovementMultiplier bpm) 360 ∧
      jsMod (p.hue + 1 / 2 * bpmMovementMultiplier bpm) 360 < 360
    have hm : 0 ≤ bpmMovementMultiplier bpm := by
      unfold bpmMovementMultiplier
      positivity
    exact jsMod_nonneg_lt (by linarith)

/-- Witness for C10 at BPM 120 and a concrete particle. -/
theorem particle_lightness_hue_witness :
    (tickUpdate 120 800 600 sampleParticle).lightness =
      min 100 (sampleParticle.lightness + 1 / 10) ∧
    (tickUpdate 120 800 600 sampleParticle).lightness ≤ 100 ∧
    (sampleParticle.lightness ≤ 100 →
      sampleParticle.lightness ≤
        (tickUpdate 120 800 600 sampleParticle).lightness) ∧
    (0 ≤ sampleParticle.hue → (0 : ℚ) ≤ 120 →
      0 ≤ (tickUpdate 120 800 600 sampleParticle).hue ∧
        (tickUpdate 120 800 600 sampleParticle).hue < 360) :=
  particle_lightness_hue 120 800 600 sampleParticle

end AudioVisualizer

end PsychMusic
